import Mathlib

/-!
# Schedule Resolver — shallow embedding

Embedding of the task-scheduling computation `calculate_schedule` from
`src/gantt-chart/generate-gantt_chart.py` (lines 90-143), together with the
two helpers it relies on: `parse_date` (Gregorian "YYYY-MM-DD" parsing, whose
date arithmetic we model through the proleptic-Gregorian ordinal, exactly as
CPython's `datetime.date.toordinal`) and the builtin `float()` applied to a
task's `duration_weeks` value.

Modelling decisions:
* A `datetime` value is a rational number of days since the epoch
  (0001-01-01 has ordinal 1, as in CPython).  Rationals are used because
  `start_date + timedelta(weeks=w)` can land at a fractional day when `w`
  is fractional; CPython keeps that fraction (to microsecond resolution) and
  we keep it exactly.  `timedelta.days` is the floor of the total day count,
  which is what `(end_date - start_date).days` computes.
* A YAML `duration_weeks` scalar is either a number or a string
  (`DurVal`).  CPython's `float()` on a string is modelled by
  `pyFloatOfString` for the finite decimal forms
  (optional surrounding whitespace, optional sign, digits with an optional
  decimal point, optional exponent, case-insensitive); the exotic inputs
  `inf`/`nan` and digit-group underscores are outside the modelled grammar.
* `sys.exit(1)` after printing `Invalid duration ...` is modelled by the
  `Except` error `ScheduleError.invalidDuration`, which carries the same two
  data the printed message carries: the offending value and the task name.
  YAML loading, the pandas DataFrame wrapper and all matplotlib rendering are
  external collaborators and are not modelled; `calculate_schedule` is taken
  at its parsed inputs (project start, project end, task list) and its
  row list output (the DataFrame preserves the list order).
-/

/-- A point on the timeline: days since the proleptic-Gregorian epoch,
fractional time-of-day allowed (CPython `datetime`, exact). -/
abbrev Date := ℚ

/-- Whether `y` is a Gregorian leap year (CPython `calendar.isleap`). -/
def isLeapYear (y : ℕ) : Bool :=
  y % 4 == 0 && (y % 100 != 0 || y % 400 == 0)

/-- Days in year `y` strictly before the first day of month `m`
(CPython `datetime._days_before_month`). -/
def daysBeforeMonth (y m : ℕ) : ℕ :=
  [0, 31, 59, 90, 120, 151, 181, 212, 243, 273, 304, 334].getD (m - 1) 0
    + (if 2 < m && isLeapYear y then 1 else 0)

/-- Proleptic-Gregorian ordinal of the date `y-m-d`; `toordinal 1 1 1 = 1`,
exactly CPython's `datetime.date.toordinal`. -/
def toordinal (y m d : ℕ) : ℕ :=
  (y - 1) * 365 + (y - 1) / 4 - (y - 1) / 100 + (y - 1) / 400
    + daysBeforeMonth y m + d

/-- The midnight `datetime` produced by `parse_date` on the string
`"y-m-d"` (source lines 86-88). -/
def ymd (y m d : ℕ) : Date := (toordinal y m d : ℚ)

/-- A YAML scalar found under `duration_weeks`: a number or a string.
Numbers are modelled exactly as rationals. -/
inductive DurVal where
  | num (q : ℚ)
  | str (s : String)
deriving Repr, DecidableEq

/-- Numeric value of a digit string (most significant first). -/
def natOfDigits (l : List Char) : ℕ :=
  l.foldl (fun a c => a * 10 + (c.toNat - 48)) 0

/-- Nonempty and all decimal digits. -/
def isDigitList (l : List Char) : Bool :=
  !l.isEmpty && l.all Char.isDigit

/-- Consume one optional leading sign; returns (isNegative, rest). -/
def parseSign : List Char → Bool × List Char
  | '+' :: r => (false, r)
  | '-' :: r => (true, r)
  | l => (false, l)

def applySign (neg : Bool) (q : ℚ) : ℚ := if neg then -q else q

/-- An unsigned decimal mantissa: `d+`, `d+.d*`, `.d+` or `d*.d+`. -/
def parseMantissa (l : List Char) : Option ℚ :=
  match l.splitOn '.' with
  | [ip] => if isDigitList ip then some (natOfDigits ip) else none
  | [ip, fp] =>
      if (ip.all Char.isDigit && fp.all Char.isDigit)
          && !(ip.isEmpty && fp.isEmpty) then
        some ((natOfDigits ip : ℚ) + (natOfDigits fp : ℚ) / (10 : ℚ) ^ fp.length)
      else none
  | _ => none

/-- A signed decimal exponent (the part after `e`). -/
def parseExp (l : List Char) : Option ℤ :=
  let p := parseSign l
  if isDigitList p.2 then
    some (if p.1 then -(natOfDigits p.2 : ℤ) else (natOfDigits p.2 : ℤ))
  else none

/-- Strip leading and trailing whitespace, as CPython `float()` does to its
string argument. -/
def pyStrip (l : List Char) : List Char :=
  ((l.dropWhile Char.isWhitespace).reverse.dropWhile Char.isWhitespace).reverse

/-- Case-fold the exponent marker: within the modelled grammar the only
letter `float()` accepts case-insensitively is the exponent `e`/`E`. -/
def lowerE (c : Char) : Char := if c = 'E' then 'e' else c

/-- CPython `float()` applied to a string: surrounding whitespace stripped,
optional sign, decimal mantissa, optional case-insensitive exponent.
Returns `none` exactly when `float()` raises `ValueError`
(within the modelled finite-decimal grammar, see the file header). -/
def pyFloatOfString (s : String) : Option ℚ :=
  let l := (pyStrip s.toList).map lowerE
  let p := parseSign l
  match p.2.splitOn 'e' with
  | [m] => (parseMantissa m).map (applySign p.1)
  | [m, ex] => do
      let q ← parseMantissa m
      let z ← parseExp ex
      pure (applySign p.1 (q * (10 : ℚ) ^ z))
  | _ => none

/-- CPython `float(duration_val)` (source line 126): a number converts to
itself, a string goes through string parsing. -/
def pyFloat : DurVal → Option ℚ
  | .num q => some q
  | .str s => pyFloatOfString s

/-- One task descriptor from the `tasks:` section of the YAML config:
`name`, `duration_weeks`, optional `start_date` (already date-parsed;
an absent or empty value is `none`, matching the truthiness test
`if manual_start:` on source line 110). -/
structure TaskDesc where
  name : String
  duration_weeks : DurVal
  start_date : Option Date := none
deriving Repr, DecidableEq

/-- One row appended to `tasks_data` (source lines 136-141); field names
are the dict keys.  `DurationDays` is `(end_date - start_date).days`,
i.e. the floor of the exact day difference. -/
structure ResolvedTask where
  Task : String
  Start : Date
  End : Date
  DurationDays : ℤ
deriving Repr, DecidableEq

/-- The fatal error path of `calculate_schedule`: `sys.exit(1)` after
printing the offending duration value and the task name
(source lines 128-130). -/
inductive ScheduleError where
  | invalidDuration (duration_val : DurVal) (name : String)
deriving Repr, DecidableEq

/-- Body of the `for task in config["tasks"]` loop (source lines 104-141)
for a single task: given the project window and the current cursor, produce
the appended row and the cursor for the next task.
* Start (lines 109-113): the fixed start if supplied, else the cursor.
* End (lines 115-130): `"start2end"` pins the interval to
  (fixed-or-project start, project end); otherwise the duration must
  `float()`-parse and the end is start + 7 x weeks days.
* Cursor (lines 132-134): advanced to the end exactly when the duration
  is not the `"start2end"` sentinel. -/
def resolveStep (project_start project_end current_date : Date)
    (task : TaskDesc) : Except ScheduleError (ResolvedTask × Date) :=
  let name := task.name
  let duration_val := task.duration_weeks
  let manual_start := task.start_date
  let start_date :=
    match manual_start with
    | some d => d
    | none => current_date
  if duration_val = DurVal.str "start2end" then
    match manual_start with
    | some d =>
        .ok ({ Task := name, Start := d, End := project_end,
               DurationDays := Int.floor (project_end - d) }, current_date)
    | none =>
        .ok ({ Task := name, Start := project_start, End := project_end,
               DurationDays := Int.floor (project_end - project_start) },
             current_date)
  else
    match pyFloat duration_val with
    | some weeks =>
        let end_date := start_date + 7 * weeks
        .ok ({ Task := name, Start := start_date, End := end_date,
               DurationDays := Int.floor (end_date - start_date) }, end_date)
    | none => .error (.invalidDuration duration_val name)

/-- The full loop of `calculate_schedule` as a fold: thread the cursor
(`current_date`) through the tasks in order, stopping at the first
invalid duration. -/
def schedLoop (project_start project_end : Date) :
    List TaskDesc → Date → Except ScheduleError (List ResolvedTask)
  | [], _ => .ok []
  | task :: rest, current_date =>
      match resolveStep project_start project_end current_date task with
      | .error e => .error e
      | .ok (rt, cur) => (schedLoop project_start project_end rest cur).map (rt :: ·)

/-- `calculate_schedule` (source lines 90-143) at its parsed inputs: the
cursor starts at the project start date (line 102) and the rows are emitted
in task order.  The long-duration advisory (lines 96-99) only prints and is
modelled separately by `durationWarning`. -/
def calculate_schedule (project_start project_end : Date)
    (tasks : List TaskDesc) : Except ScheduleError (List ResolvedTask) :=
  schedLoop project_start project_end tasks project_start

/-- The non-fatal advisory check of source lines 96-99: warn when the
project spans more than 450 days.  It does not affect resolution. -/
def durationWarning (project_start project_end : Date) : Bool :=
  decide (450 < Int.floor (project_end - project_start))

/-- Decidable equality of run outcomes, so concrete runs can be checked by
`decide`. -/
instance decEqExcept {ε α : Type} [DecidableEq ε] [DecidableEq α] :
    DecidableEq (Except ε α)
  | .error e, .error f =>
      if h : e = f then isTrue (by rw [h]) else isFalse (by simp [h])
  | .error _, .ok _ => isFalse (by simp)
  | .ok _, .error _ => isFalse (by simp)
  | .ok a, .ok b =>
      if h : a = b then isTrue (by rw [h]) else isFalse (by simp [h])

/-! ## Step lemmas: the four outcomes of one loop iteration -/

/-- A `"start2end"` task without a fixed start resolves to the whole project
window and leaves the cursor untouched. -/
theorem resolveStep_sentinel_none (ps pe cur : Date) (task : TaskDesc)
    (hdur : task.duration_weeks = DurVal.str "start2end")
    (hms : task.start_date = none) :
    resolveStep ps pe cur task =
      .ok ({ Task := task.name, Start := ps, End := pe,
             DurationDays := Int.floor (pe - ps) }, cur) := by
  simp [resolveStep, hdur, hms]

/-- A `"start2end"` task with a fixed start `d` resolves to `(d, pe)` and
leaves the cursor untouched. -/
theorem resolveStep_sentinel_some (ps pe cur : Date) (task : TaskDesc)
    (hdur : task.duration_weeks = DurVal.str "start2end")
    (d : Date) (hms : task.start_date = some d) :
    resolveStep ps pe cur task =
      .ok ({ Task := task.name, Start := d, End := pe,
             DurationDays := Int.floor (pe - d) }, cur) := by
  simp [resolveStep, hdur, hms]

/-- A parseable non-sentinel duration without a fixed start resolves to
`(cur, cur + 7w)` and advances the cursor to the end. -/
theorem resolveStep_numeric_none (ps pe cur : Date) (task : TaskDesc)
    (hdur : task.duration_weeks ≠ DurVal.str "start2end")
    (hms : task.start_date = none)
    (w : ℚ) (hw : pyFloat task.duration_weeks = some w) :
    resolveStep ps pe cur task =
      .ok ({ Task := task.name, Start := cur, End := cur + 7 * w,
             DurationDays := Int.floor (7 * w) }, cur + 7 * w) := by
  simp [resolveStep, hdur, hms, hw]

/-- A parseable non-sentinel duration with a fixed start `d` resolves to
`(d, d + 7w)` and advances the cursor to the end. -/
theorem resolveStep_numeric_some (ps pe cur : Date) (task : TaskDesc)
    (hdur : task.duration_weeks ≠ DurVal.str "start2end")
    (d : Date) (hms : task.start_date = some d)
    (w : ℚ) (hw : pyFloat task.duration_weeks = some w) :
    resolveStep ps pe cur task =
      .ok ({ Task := task.name, Start := d, End := d + 7 * w,
             DurationDays := Int.floor (7 * w) }, d + 7 * w) := by
  simp [resolveStep, hdur, hms, hw]

/-- An unparseable non-sentinel duration is the only failing outcome, and
it reports the offending value and the task name. -/
theorem resolveStep_invalid (ps pe cur : Date) (task : TaskDesc)
    (hdur : task.duration_weeks ≠ DurVal.str "start2end")
    (hw : pyFloat task.duration_weeks = none) :
    resolveStep ps pe cur task =
      .error (.invalidDuration task.duration_weeks task.name) := by
  simp [resolveStep, hdur, hw]

/-- Every successful step carries the task's own name into the row. -/
theorem resolveStep_ok_name (ps pe cur : Date) (task : TaskDesc)
    (rt : ResolvedTask) (cur₂ : Date)
    (h : resolveStep ps pe cur task = .ok (rt, cur₂)) : rt.Task = task.name := by
  by_cases hdur : task.duration_weeks = DurVal.str "start2end"
  · cases hms : task.start_date with
    | none => rw [resolveStep_sentinel_none ps pe cur task hdur hms] at h
              simp at h
              rw [← h.1]
    | some d => rw [resolveStep_sentinel_some ps pe cur task hdur d hms] at h
                simp at h
                rw [← h.1]
  · cases hw : pyFloat task.duration_weeks with
    | none => rw [resolveStep_invalid ps pe cur task hdur hw] at h
              simp at h
    | some w =>
        cases hms : task.start_date with
        | none => rw [resolveStep_numeric_none ps pe cur task hdur hms w hw] at h
                  simp at h
                  rw [← h.1]
        | some d => rw [resolveStep_numeric_some ps pe cur task hdur d hms w hw] at h
                    simp at h
                    rw [← h.1]

/-! ## Loop decomposition -/

/-- Unfolding one successful iteration of the loop. -/
theorem schedLoop_cons_ok (ps pe cur : Date) (task : TaskDesc)
    (rest : List TaskDesc) (res : List ResolvedTask)
    (h : schedLoop ps pe (task :: rest) cur = .ok res) :
    ∃ rt cur₂ res₂, resolveStep ps pe cur task = .ok (rt, cur₂) ∧
      schedLoop ps pe rest cur₂ = .ok res₂ ∧ res = rt :: res₂ := by
  unfold schedLoop at h
  cases h₁ : resolveStep ps pe cur task with
  | error e => rw [h₁] at h; simp at h
  | ok p =>
      obtain ⟨rt, cur₂⟩ := p
      rw [h₁] at h
      dsimp only at h
      cases h₂ : schedLoop ps pe rest cur₂ with
      | error e => rw [h₂] at h; simp [Except.map] at h
      | ok res₂ =>
          rw [h₂] at h
          simp [Except.map] at h
          exact ⟨rt, cur₂, res₂, rfl, h₂, h.symm⟩

/-- A successful step followed by a successful tail yields the cons run. -/
theorem schedLoop_cons_of_step (ps pe cur : Date) (task : TaskDesc)
    (rest : List TaskDesc) (rt : ResolvedTask) (cur₂ : Date)
    (res₂ : List ResolvedTask)
    (h₁ : resolveStep ps pe cur task = .ok (rt, cur₂))
    (h₂ : schedLoop ps pe rest cur₂ = .ok res₂) :
    schedLoop ps pe (task :: rest) cur = .ok (rt :: res₂) := by
  simp [schedLoop, h₁, h₂, Except.map]

/-- A failing step fails the whole cons run with the same error. -/
theorem schedLoop_cons_of_error (ps pe cur : Date) (task : TaskDesc)
    (rest : List TaskDesc) (e : ScheduleError)
    (h₁ : resolveStep ps pe cur task = .error e) :
    schedLoop ps pe (task :: rest) cur = .error e := by
  simp [schedLoop, h₁]

/-! ## Run-level lemmas -/

/-- A successful run emits one row per task, in order, each carrying the
name of the task at the same position. -/
theorem schedLoop_length_names (ps pe : Date) :
    ∀ (tasks : List TaskDesc) (cur : Date) (res : List ResolvedTask),
      schedLoop ps pe tasks cur = .ok res →
      res.length = tasks.length ∧
      ∀ i (hi : i < tasks.length) (hi₂ : i < res.length),
        (res.get ⟨i, hi₂⟩).Task = (tasks.get ⟨i, hi⟩).name := by
  intro tasks
  induction tasks with
  | nil =>
      intro cur res h
      simp [schedLoop] at h
      subst h
      exact ⟨rfl, by intro i hi; simp at hi⟩
  | cons task rest ih =>
      intro cur res h
      obtain ⟨rt, cur₂, res₂, h₁, h₂, hres⟩ := schedLoop_cons_ok ps pe cur task rest res h
      subst hres
      obtain ⟨ihlen, ihnames⟩ := ih cur₂ res₂ h₂
      refine ⟨by simp [ihlen], ?_⟩
      intro i hi hi₂
      cases i with
      | zero => simpa using resolveStep_ok_name ps pe cur task rt cur₂ h₁
      | succ j =>
          simp only [List.get_cons_succ]
          exact ihnames j (by simpa using hi) (by simpa using hi₂)

/-- In a successful run, an unanchored `"start2end"` task at any position
resolves to the full project window, whatever cursor it was reached with. -/
theorem schedLoop_sentinel_entry (ps pe : Date) :
    ∀ (tasks : List TaskDesc) (cur : Date) (res : List ResolvedTask),
      schedLoop ps pe tasks cur = .ok res →
      ∀ i (hi : i < tasks.length),
        (tasks.get ⟨i, hi⟩).duration_weeks = DurVal.str "start2end" →
        (tasks.get ⟨i, hi⟩).start_date = none →
        ∃ hi₂ : i < res.length,
          (res.get ⟨i, hi₂⟩).Start = ps ∧ (res.get ⟨i, hi₂⟩).End = pe := by
  intro tasks
  induction tasks with
  | nil => intro cur res h i hi; simp at hi
  | cons task rest ih =>
      intro cur res h i hi hdur hms
      obtain ⟨rt, cur₂, res₂, h₁, h₂, hres⟩ := schedLoop_cons_ok ps pe cur task rest res h
      subst hres
      cases i with
      | zero =>
          simp at hdur hms
          rw [resolveStep_sentinel_none ps pe cur task hdur hms] at h₁
          simp at h₁
          refine ⟨by simp, ?_⟩
          simp [← h₁.1]
      | succ j =>
          simp only [List.get_cons_succ] at hdur hms
          obtain ⟨hj, hst, hen⟩ := ih cur₂ res₂ h₂ j (by simpa using hi) hdur hms
          exact ⟨by simpa using hj, by simpa using hst, by simpa using hen⟩

/-- A successful step followed by a failing tail fails the cons run with
the tail's error. -/
theorem schedLoop_cons_error_tail (ps pe cur : Date) (task : TaskDesc)
    (rest : List TaskDesc) (rt : ResolvedTask) (cur₂ : Date) (e : ScheduleError)
    (h₁ : resolveStep ps pe cur task = .ok (rt, cur₂))
    (h₂ : schedLoop ps pe rest cur₂ = .error e) :
    schedLoop ps pe (task :: rest) cur = .error e := by
  simp [schedLoop, h₁, h₂, Except.map]

/-- A step can only fail on a non-sentinel, unparseable duration; on every
other task it succeeds, whatever the cursor. -/
theorem resolveStep_ok_of_not_bad (ps pe cur : Date) (task : TaskDesc)
    (h : ¬ (task.duration_weeks ≠ DurVal.str "start2end" ∧
            pyFloat task.duration_weeks = none)) :
    ∃ rt cur₂, resolveStep ps pe cur task = .ok (rt, cur₂) := by
  by_cases hdur : task.duration_weeks = DurVal.str "start2end"
  · cases hms : task.start_date with
    | none => exact ⟨_, _, resolveStep_sentinel_none ps pe cur task hdur hms⟩
    | some d => exact ⟨_, _, resolveStep_sentinel_some ps pe cur task hdur d hms⟩
  · have hne : pyFloat task.duration_weeks ≠ none := fun hn => h ⟨hdur, hn⟩
    obtain ⟨w, hw⟩ := Option.ne_none_iff_exists.mp hne
    cases hms : task.start_date with
    | none => exact ⟨_, _, resolveStep_numeric_none ps pe cur task hdur hms w hw.symm⟩
    | some d => exact ⟨_, _, resolveStep_numeric_some ps pe cur task hdur d hms w hw.symm⟩

/-- If some task in the list has a non-sentinel, unparseable duration, the
run fails with `invalidDuration` naming such a task, for every cursor. -/
theorem schedLoop_invalid_error (ps pe : Date) :
    ∀ (tasks : List TaskDesc),
      (∃ t ∈ tasks, t.duration_weeks ≠ DurVal.str "start2end" ∧
        pyFloat t.duration_weeks = none) →
      ∀ cur, ∃ t ∈ tasks, t.duration_weeks ≠ DurVal.str "start2end" ∧
        pyFloat t.duration_weeks = none ∧
        schedLoop ps pe tasks cur = .error (.invalidDuration t.duration_weeks t.name) := by
  intro tasks
  induction tasks with
  | nil => intro h; simp at h
  | cons task rest ih =>
      intro h cur
      by_cases hbad : task.duration_weeks ≠ DurVal.str "start2end" ∧
          pyFloat task.duration_weeks = none
      · exact ⟨task, by simp, hbad.1, hbad.2,
          schedLoop_cons_of_error ps pe cur task rest _
            (resolveStep_invalid ps pe cur task hbad.1 hbad.2)⟩
      · obtain ⟨rt, cur₂, hstep⟩ := resolveStep_ok_of_not_bad ps pe cur task hbad
        obtain ⟨t, ht, htprops⟩ := h
        have htrest : t ∈ rest := by
          rcases List.mem_cons.mp ht with heq | hmem
          · subst heq; exact absurd htprops hbad
          · exact hmem
        obtain ⟨u, hu, hd, hp, hrun⟩ := ih ⟨t, htrest, htprops⟩ cur₂
        exact ⟨u, by simp [hu], hd, hp,
          schedLoop_cons_error_tail ps pe cur task rest rt cur₂ _ hstep hrun⟩

/-- For a list of unanchored, parseable, non-sentinel tasks the run
succeeds, starts at the cursor, and chains each end into the next start. -/
theorem schedLoop_numeric_chain (ps pe : Date) :
    ∀ (tasks : List TaskDesc),
      (∀ t ∈ tasks, t.start_date = none ∧
        t.duration_weeks ≠ DurVal.str "start2end" ∧
        (pyFloat t.duration_weeks).isSome) →
      ∀ cur, ∃ res, schedLoop ps pe tasks cur = .ok res ∧
        res.length = tasks.length ∧
        (∀ hne : 0 < res.length, (res.get ⟨0, hne⟩).Start = cur) ∧
        ∀ i (h₁ : i + 1 < res.length),
          (res.get ⟨i, Nat.lt_of_succ_lt h₁⟩).End = (res.get ⟨i + 1, h₁⟩).Start := by
  intro tasks
  induction tasks with
  | nil =>
      intro _ cur
      exact ⟨[], by simp [schedLoop], rfl,
        by intro hne; simp at hne, by intro i h₁; simp at h₁⟩
  | cons task rest ih =>
      intro hall cur
      obtain ⟨hms, hdur, hsome⟩ := hall task (by simp)
      obtain ⟨w, hw⟩ := Option.isSome_iff_exists.mp hsome
      have hstep := resolveStep_numeric_none ps pe cur task hdur hms w hw
      obtain ⟨res₂, h₂, hlen, hhead, hchain⟩ :=
        ih (fun t ht => hall t (by simp [ht])) (cur + 7 * w)
      refine ⟨{ Task := task.name, Start := cur, End := cur + 7 * w,
                DurationDays := Int.floor (7 * w) } :: res₂,
        schedLoop_cons_of_step ps pe cur task rest _ _ res₂ hstep h₂,
        by simp [hlen], by intro hne; simp, ?_⟩
      intro i h₁
      cases i with
      | zero =>
          have hne : 0 < res₂.length := by simpa using h₁
          have := hhead hne
          simp only [List.get_cons_succ, List.get_cons_zero]
          simpa using this.symm
      | succ j =>
          have h₂len : j + 1 < res₂.length := by simpa using h₁
          have := hchain j h₂len
          simp only [List.get_cons_succ]
          simpa using this

/-! ## Claims -/

/-- C1: for project 2026-02-01 .. 2026-04-01 and tasks
[Lit Review (3 weeks), Pilot ("start2end"), Writeup (2 weeks)], all without
fixed start dates, the resolver returns exactly
Lit Review = (2026-02-01, 2026-02-22), Pilot = (2026-02-01, 2026-04-01),
Writeup = (2026-02-22, 2026-03-08), in that order. -/
theorem c1_example_resolution :
    calculate_schedule (ymd 2026 2 1) (ymd 2026 4 1)
      [{ name := "Lit Review", duration_weeks := DurVal.num 3 },
       { name := "Pilot", duration_weeks := DurVal.str "start2end" },
       { name := "Writeup", duration_weeks := DurVal.num 2 }] =
    .ok [{ Task := "Lit Review", Start := ymd 2026 2 1, End := ymd 2026 2 22,
           DurationDays := 21 },
         { Task := "Pilot", Start := ymd 2026 2 1, End := ymd 2026 4 1,
           DurationDays := 59 },
         { Task := "Writeup", Start := ymd 2026 2 22, End := ymd 2026 3 8,
           DurationDays := 14 }] := by
  simp [calculate_schedule, schedLoop, resolveStep, pyFloat, Except.map, ymd]
  norm_num [toordinal, daysBeforeMonth, isLeapYear]

/-- C2: a task whose duration is the `"start2end"` sentinel and which has no
fixed start date resolves to exactly (project start, project end) — as a
single step for every cursor value, and inside a whole run at every position
of the task sequence. -/
theorem c2_span_to_end_full_window :
    (∀ (ps pe cur : Date) (task : TaskDesc),
        task.duration_weeks = DurVal.str "start2end" →
        task.start_date = none →
        resolveStep ps pe cur task =
          .ok ({ Task := task.name, Start := ps, End := pe,
                 DurationDays := Int.floor (pe - ps) }, cur)) ∧
    ∀ (ps pe : Date) (tasks : List TaskDesc) (res : List ResolvedTask),
      calculate_schedule ps pe tasks = .ok res →
      ∀ i (hi : i < tasks.length),
        (tasks.get ⟨i, hi⟩).duration_weeks = DurVal.str "start2end" →
        (tasks.get ⟨i, hi⟩).start_date = none →
        ∃ hi₂ : i < res.length,
          (res.get ⟨i, hi₂⟩).Start = ps ∧ (res.get ⟨i, hi₂⟩).End = pe := by
  constructor
  · exact fun ps pe cur task hdur hms =>
      resolveStep_sentinel_none ps pe cur task hdur hms
  · exact fun ps pe tasks res h => schedLoop_sentinel_entry ps pe tasks ps res h

theorem c2_span_to_end_full_window_witness :
    resolveStep (ymd 2026 2 1) (ymd 2026 4 1) (ymd 2026 2 22)
      { name := "Pilot", duration_weeks := DurVal.str "start2end",
        start_date := none } =
      .ok ({ Task := "Pilot", Start := ymd 2026 2 1, End := ymd 2026 4 1,
             DurationDays := Int.floor (ymd 2026 4 1 - ymd 2026 2 1) },
           ymd 2026 2 22) :=
  c2_span_to_end_full_window.1 (ymd 2026 2 1) (ymd 2026 4 1) (ymd 2026 2 22)
    { name := "Pilot", duration_weeks := DurVal.str "start2end",
      start_date := none } rfl rfl

/-- C3: a `"start2end"` task leaves the cursor unchanged: as a single step,
for every cursor; and in the concrete run [A (2 weeks), B ("start2end"),
C (3 weeks)] from 2026-01-01, C starts at A's end 2026-01-15, not at B's
end. -/
theorem c3_cursor_unchanged :
    (∀ (ps pe cur : Date) (task : TaskDesc),
        task.duration_weeks = DurVal.str "start2end" →
        ∃ rt, resolveStep ps pe cur task = .ok (rt, cur)) ∧
    calculate_schedule (ymd 2026 1 1) (ymd 2026 3 1)
      [{ name := "A", duration_weeks := DurVal.num 2 },
       { name := "B", duration_weeks := DurVal.str "start2end" },
       { name := "C", duration_weeks := DurVal.num 3 }] =
    .ok [{ Task := "A", Start := ymd 2026 1 1, End := ymd 2026 1 15,
           DurationDays := 14 },
         { Task := "B", Start := ymd 2026 1 1, End := ymd 2026 3 1,
           DurationDays := 59 },
         { Task := "C", Start := ymd 2026 1 15, End := ymd 2026 2 5,
           DurationDays := 21 }] := by
  constructor
  · intro ps pe cur task hdur
    cases hms : task.start_date with
    | none => exact ⟨_, resolveStep_sentinel_none ps pe cur task hdur hms⟩
    | some d => exact ⟨_, resolveStep_sentinel_some ps pe cur task hdur d hms⟩
  · simp [calculate_schedule, schedLoop, resolveStep, pyFloat, Except.map, ymd]
    norm_num [toordinal, daysBeforeMonth, isLeapYear]

theorem c3_cursor_unchanged_witness :
    ∃ rt, resolveStep (ymd 2026 1 1) (ymd 2026 3 1) (ymd 2026 1 15)
      { name := "B", duration_weeks := DurVal.str "start2end",
        start_date := none } = .ok (rt, ymd 2026 1 15) :=
  c3_cursor_unchanged.1 (ymd 2026 1 1) (ymd 2026 3 1) (ymd 2026 1 15)
    { name := "B", duration_weeks := DurVal.str "start2end",
      start_date := none } rfl

/-- C4: a task with a fixed start date `d` always has resolved start `d`,
whatever the cursor; and when its duration is a parseable non-sentinel
value of `w` weeks, the next cursor is its own end `d + 7w`, not the
previous cursor. -/
theorem c4_fixed_start_override (ps pe cur : Date) (task : TaskDesc)
    (d : Date) (hms : task.start_date = some d) :
    (∀ rt cur₂, resolveStep ps pe cur task = .ok (rt, cur₂) → rt.Start = d) ∧
    (task.duration_weeks ≠ DurVal.str "start2end" →
      ∀ w, pyFloat task.duration_weeks = some w →
        resolveStep ps pe cur task =
          .ok ({ Task := task.name, Start := d, End := d + 7 * w,
                 DurationDays := Int.floor (7 * w) }, d + 7 * w)) := by
  constructor
  · intro rt cur₂ h
    by_cases hdur : task.duration_weeks = DurVal.str "start2end"
    · rw [resolveStep_sentinel_some ps pe cur task hdur d hms] at h
      simp at h
      rw [← h.1]
    · cases hw : pyFloat task.duration_weeks with
      | none => rw [resolveStep_invalid ps pe cur task hdur hw] at h; simp at h
      | some w =>
          rw [resolveStep_numeric_some ps pe cur task hdur d hms w hw] at h
          simp at h
          rw [← h.1]
  · intro hdur w hw
    exact resolveStep_numeric_some ps pe cur task hdur d hms w hw

theorem c4_fixed_start_override_witness :
    resolveStep (ymd 2026 1 1) (ymd 2026 6 1) (ymd 2026 1 1)
      { name := "T", duration_weeks := DurVal.num 2,
        start_date := some (ymd 2026 3 1) } =
      .ok ({ Task := "T", Start := ymd 2026 3 1, End := ymd 2026 3 1 + 7 * 2,
             DurationDays := Int.floor ((7 : ℚ) * 2) }, ymd 2026 3 1 + 7 * 2) :=
  (c4_fixed_start_override (ymd 2026 1 1) (ymd 2026 6 1) (ymd 2026 1 1)
    { name := "T", duration_weeks := DurVal.num 2,
      start_date := some (ymd 2026 3 1) } (ymd 2026 3 1) rfl).2 (by decide) 2 rfl

/-- C5: when every task has a parseable non-sentinel duration and no fixed
start, the run succeeds and is contiguous and gapless: one row per task, the
first row starts at the project start, and each row's end equals the next
row's start. -/
theorem c5_contiguous_gapless (ps pe : Date) (tasks : List TaskDesc)
    (h : ∀ t ∈ tasks, t.start_date = none ∧
      t.duration_weeks ≠ DurVal.str "start2end" ∧
      (pyFloat t.duration_weeks).isSome) :
    ∃ res, calculate_schedule ps pe tasks = .ok res ∧
      res.length = tasks.length ∧
      (∀ hne : 0 < res.length, (res.get ⟨0, hne⟩).Start = ps) ∧
      ∀ i (h₁ : i + 1 < res.length),
        (res.get ⟨i, Nat.lt_of_succ_lt h₁⟩).End = (res.get ⟨i + 1, h₁⟩).Start :=
  schedLoop_numeric_chain ps pe tasks h ps

theorem c5_contiguous_gapless_witness :
    ∃ res, calculate_schedule (ymd 2026 1 1) (ymd 2026 3 1)
        [{ name := "A", duration_weeks := DurVal.num 2 },
         { name := "B", duration_weeks := DurVal.num 1 }] = .ok res ∧
      res.length = ([{ name := "A", duration_weeks := DurVal.num 2 },
         { name := "B", duration_weeks := DurVal.num 1 }] : List TaskDesc).length ∧
      (∀ hne : 0 < res.length, (res.get ⟨0, hne⟩).Start = ymd 2026 1 1) ∧
      ∀ i (h₁ : i + 1 < res.length),
        (res.get ⟨i, Nat.lt_of_succ_lt h₁⟩).End = (res.get ⟨i + 1, h₁⟩).Start :=
  c5_contiguous_gapless (ymd 2026 1 1) (ymd 2026 3 1)
    [{ name := "A", duration_weeks := DurVal.num 2 },
     { name := "B", duration_weeks := DurVal.num 1 }] (by decide)

/-- C6 (amended): for a non-sentinel duration, the resolver fails — with
`invalidDuration` carrying the offending value and the task name — exactly
when the value does not parse as a number; every value that does parse is
accepted, with no non-negativity check. -/
theorem c6_invalid_iff_unparseable (ps pe cur : Date) (task : TaskDesc)
    (hdur : task.duration_weeks ≠ DurVal.str "start2end") :
    (resolveStep ps pe cur task =
        .error (.invalidDuration task.duration_weeks task.name) ↔
      pyFloat task.duration_weeks = none) ∧
    ∀ w, pyFloat task.duration_weeks = some w →
      ∃ rt, resolveStep ps pe cur task = .ok (rt, rt.End) := by
  constructor
  · constructor
    · intro h
      cases hw : pyFloat task.duration_weeks with
      | none => rfl
      | some w =>
          cases hms : task.start_date with
          | none =>
              rw [resolveStep_numeric_none ps pe cur task hdur hms w hw] at h
              simp at h
          | some d =>
              rw [resolveStep_numeric_some ps pe cur task hdur d hms w hw] at h
              simp at h
    · intro hw
      exact resolveStep_invalid ps pe cur task hdur hw
  · intro w hw
    cases hms : task.start_date with
    | none => exact ⟨_, resolveStep_numeric_none ps pe cur task hdur hms w hw⟩
    | some d => exact ⟨_, resolveStep_numeric_some ps pe cur task hdur d hms w hw⟩

theorem c6_invalid_iff_unparseable_witness :
    (resolveStep (ymd 2026 1 1) (ymd 2026 3 1) (ymd 2026 1 1)
        { name := "T", duration_weeks := DurVal.str "abc", start_date := none } =
        .error (.invalidDuration
          ({ name := "T", duration_weeks := DurVal.str "abc", start_date := none } : TaskDesc).duration_weeks
          ({ name := "T", duration_weeks := DurVal.str "abc", start_date := none } : TaskDesc).name) ↔
      pyFloat ({ name := "T", duration_weeks := DurVal.str "abc", start_date := none } : TaskDesc).duration_weeks = none) ∧
    ∀ w, pyFloat ({ name := "T", duration_weeks := DurVal.str "abc", start_date := none } : TaskDesc).duration_weeks = some w →
      ∃ rt, resolveStep (ymd 2026 1 1) (ymd 2026 3 1) (ymd 2026 1 1)
        { name := "T", duration_weeks := DurVal.str "abc", start_date := none } =
        .ok (rt, rt.End) :=
  c6_invalid_iff_unparseable (ymd 2026 1 1) (ymd 2026 3 1) (ymd 2026 1 1)
    { name := "T", duration_weeks := DurVal.str "abc", start_date := none }
    (by decide)

/-- C6 counterexample: `"-1"` parses as the number −1, which is negative,
and the resolver accepts it without error, scheduling the task backwards
(end 2025-12-25, one week before its start): the claim's requirement that a
parsed value "must be a non-negative real number of weeks" is not enforced
by the code. -/
theorem c6_negative_duration_accepted :
    pyFloat (DurVal.str "-1") = some (-1) ∧ ¬ ((0 : ℚ) ≤ -1) ∧
    calculate_schedule (ymd 2026 1 1) (ymd 2026 3 1)
      [{ name := "T", duration_weeks := DurVal.str "-1" }] =
    .ok [{ Task := "T", Start := ymd 2026 1 1, End := ymd 2025 12 25,
           DurationDays := -7 }] := by
  refine ⟨rfl, by norm_num, ?_⟩
  have hp : pyFloat (DurVal.str "-1") = some (-1) := rfl
  simp [calculate_schedule, schedLoop, resolveStep, hp, Except.map]
  norm_num [ymd, toordinal, daysBeforeMonth, isLeapYear]

/-- C7 (amended): for a parseable non-sentinel duration of `w` weeks, the
resolved end equals the resolved start plus exactly `7 * w` days — the
fractional part of a day is kept in the end date, not truncated — and only
the reported `DurationDays` is the floor of the exact day difference. -/
theorem c7_numeric_end_exact (ps pe cur : Date) (task : TaskDesc)
    (hdur : task.duration_weeks ≠ DurVal.str "start2end")
    (w : ℚ) (hw : pyFloat task.duration_weeks = some w) :
    ∀ rt cur₂, resolveStep ps pe cur task = .ok (rt, cur₂) →
      rt.End = rt.Start + 7 * w ∧ rt.DurationDays = Int.floor (7 * w) := by
  intro rt cur₂ h
  cases hms : task.start_date with
  | none =>
      rw [resolveStep_numeric_none ps pe cur task hdur hms w hw] at h
      simp at h
      rw [← h.1]
      exact ⟨rfl, by norm_num⟩
  | some d =>
      rw [resolveStep_numeric_some ps pe cur task hdur d hms w hw] at h
      simp at h
      rw [← h.1]
      exact ⟨rfl, by norm_num⟩

theorem c7_numeric_end_exact_witness :
    ({ Task := "T", Start := ymd 2026 1 1, End := ymd 2026 1 15, DurationDays := 14 } : ResolvedTask).End =
      ({ Task := "T", Start := ymd 2026 1 1, End := ymd 2026 1 15, DurationDays := 14 } : ResolvedTask).Start + 7 * 2 ∧
    ({ Task := "T", Start := ymd 2026 1 1, End := ymd 2026 1 15, DurationDays := 14 } : ResolvedTask).DurationDays =
      Int.floor ((7 : ℚ) * 2) :=
  c7_numeric_end_exact (ymd 2026 1 1) (ymd 2026 3 1) (ymd 2026 1 1)
    { name := "T", duration_weeks := DurVal.num 2, start_date := none }
    (by decide) 2 rfl
    { Task := "T", Start := ymd 2026 1 1, End := ymd 2026 1 15, DurationDays := 14 }
    (ymd 2026 1 15)
    (by simp [resolveStep, pyFloat]
        norm_num [ymd, toordinal, daysBeforeMonth, isLeapYear])

/-- C7 counterexample: a 2.5-week task starting 2026-01-01 ends exactly
17.5 days later — `end - start = 35/2` days, which is not a whole number of
days (its denominator is 2, and a rational equals an integer iff its
denominator is 1; in CPython the end lands at 2026-01-18 12:00).  Only the
reported `DurationDays` is truncated, to 17. -/
theorem c7_fractional_end_not_truncated :
    calculate_schedule (ymd 2026 1 1) (ymd 2026 3 1)
      [{ name := "T", duration_weeks := DurVal.num (5 / 2) }] =
    .ok [{ Task := "T", Start := ymd 2026 1 1, End := ymd 2026 1 1 + 35 / 2,
           DurationDays := 17 }] ∧
    ((ymd 2026 1 1 + 35 / 2) - ymd 2026 1 1 : ℚ).den ≠ 1 ∧
    ¬ ∃ z : ℤ, ((ymd 2026 1 1 + 35 / 2) - ymd 2026 1 1 : ℚ) = (z : ℚ) := by
  have hdiff : ((ymd 2026 1 1 + 35 / 2) - ymd 2026 1 1 : ℚ) = 35 / 2 := by ring
  refine ⟨?_, ?_, ?_⟩
  · simp [calculate_schedule, schedLoop, resolveStep, pyFloat, Except.map]
    norm_num [ymd, toordinal, daysBeforeMonth, isLeapYear]
  · rw [hdiff]
    norm_num [Rat.den]
  · rintro ⟨z, hz⟩
    rw [hdiff] at hz
    have hden : ((35 : ℚ) / 2).den = 1 := by rw [hz]; exact Rat.den_intCast z
    norm_num [Rat.den] at hden

/-- C8: if any task's duration is neither the sentinel nor parseable, the
whole run fails with `invalidDuration` naming such a task, and no resolved
tasks are emitted at all — the result is never an `ok` list, partial or
otherwise. -/
theorem c8_invalid_aborts_run (ps pe : Date) (tasks : List TaskDesc)
    (h : ∃ t ∈ tasks, t.duration_weeks ≠ DurVal.str "start2end" ∧
      pyFloat t.duration_weeks = none) :
    (∃ t ∈ tasks, t.duration_weeks ≠ DurVal.str "start2end" ∧
      pyFloat t.duration_weeks = none ∧
      calculate_schedule ps pe tasks =
        .error (.invalidDuration t.duration_weeks t.name)) ∧
    ∀ res, calculate_schedule ps pe tasks ≠ .ok res := by
  obtain ⟨t, ht, hd, hp, hrun⟩ := schedLoop_invalid_error ps pe tasks h ps
  have hrun₂ : calculate_schedule ps pe tasks =
      .error (.invalidDuration t.duration_weeks t.name) := hrun
  refine ⟨⟨t, ht, hd, hp, hrun₂⟩, ?_⟩
  intro res hok
  rw [hok] at hrun₂
  simp at hrun₂

theorem c8_invalid_aborts_run_witness :
    (∃ t ∈ ([{ name := "A", duration_weeks := DurVal.num 1, start_date := none },
            { name := "B", duration_weeks := DurVal.str "abc", start_date := none }] : List TaskDesc),
      t.duration_weeks ≠ DurVal.str "start2end" ∧
      pyFloat t.duration_weeks = none ∧
      calculate_schedule (ymd 2026 1 1) (ymd 2026 3 1)
        [{ name := "A", duration_weeks := DurVal.num 1, start_date := none },
         { name := "B", duration_weeks := DurVal.str "abc", start_date := none }] =
        .error (.invalidDuration t.duration_weeks t.name)) ∧
    ∀ res, calculate_schedule (ymd 2026 1 1) (ymd 2026 3 1)
      [{ name := "A", duration_weeks := DurVal.num 1, start_date := none },
       { name := "B", duration_weeks := DurVal.str "abc", start_date := none }] ≠
      .ok res :=
  c8_invalid_aborts_run (ymd 2026 1 1) (ymd 2026 3 1)
    [{ name := "A", duration_weeks := DurVal.num 1, start_date := none },
     { name := "B", duration_weeks := DurVal.str "abc", start_date := none }]
    (by decide)

/-- C9: every successful run emits exactly one resolved task per input
descriptor, in input order, carrying that descriptor's name. -/
theorem c9_one_row_per_task (ps pe : Date) (tasks : List TaskDesc)
    (res : List ResolvedTask) (h : calculate_schedule ps pe tasks = .ok res) :
    res.length = tasks.length ∧
    ∀ i (hi : i < tasks.length) (hi₂ : i < res.length),
      (res.get ⟨i, hi₂⟩).Task = (tasks.get ⟨i, hi⟩).name :=
  schedLoop_length_names ps pe tasks ps res h

theorem c9_one_row_per_task_witness :
    ([{ Task := "A", Start := ymd 2026 1 1, End := ymd 2026 1 8, DurationDays := 7 }] : List ResolvedTask).length =
      ([{ name := "A", duration_weeks := DurVal.num 1, start_date := none }] : List TaskDesc).length ∧
    ∀ i (hi : i < ([{ name := "A", duration_weeks := DurVal.num 1, start_date := none }] : List TaskDesc).length)
      (hi₂ : i < ([{ Task := "A", Start := ymd 2026 1 1, End := ymd 2026 1 8, DurationDays := 7 }] : List ResolvedTask).length),
      (([{ Task := "A", Start := ymd 2026 1 1, End := ymd 2026 1 8, DurationDays := 7 }] : List ResolvedTask).get ⟨i, hi₂⟩).Task =
        (([{ name := "A", duration_weeks := DurVal.num 1, start_date := none }] : List TaskDesc).get ⟨i, hi⟩).name :=
  c9_one_row_per_task (ymd 2026 1 1) (ymd 2026 3 1)
    [{ name := "A", duration_weeks := DurVal.num 1, start_date := none }]
    [{ Task := "A", Start := ymd 2026 1 1, End := ymd 2026 1 8, DurationDays := 7 }]
    (by have hp : pyFloat (DurVal.num 1) = some 1 := rfl
        simp [calculate_schedule, schedLoop, resolveStep, hp, Except.map]
        norm_num [ymd, toordinal, daysBeforeMonth, isLeapYear])

/-- C10: the sentinel test is an exact string comparison with
`"start2end"`: any other string duration is routed through numeric parsing
— failing if unparseable, and otherwise scheduled exactly like the
corresponding numeric duration — and in particular the numeric strings
`"2"` and `"2.5"` parse (while `"start2end"` itself does not). -/
theorem c10_sentinel_exact_string :
    (∀ (s : String), s ≠ "start2end" → pyFloatOfString s = none →
      ∀ (nm : String) (ms : Option Date) (ps pe cur : Date),
        resolveStep ps pe cur { name := nm, duration_weeks := DurVal.str s, start_date := ms } =
          .error (.invalidDuration (DurVal.str s) nm)) ∧
    (∀ (s : String), s ≠ "start2end" → ∀ w : ℚ, pyFloatOfString s = some w →
      ∀ (nm : String) (ms : Option Date) (ps pe cur : Date),
        resolveStep ps pe cur { name := nm, duration_weeks := DurVal.str s, start_date := ms } =
          resolveStep ps pe cur { name := nm, duration_weeks := DurVal.num w, start_date := ms }) ∧
    pyFloatOfString "2" = some 2 ∧ pyFloatOfString "2.5" = some (5 / 2) ∧
    pyFloatOfString "start2end" = none := by
  refine ⟨?_, ?_, rfl, ?_, rfl⟩
  · intro s hs hv nm ms ps pe cur
    have hdur : ({ name := nm, duration_weeks := DurVal.str s, start_date := ms } : TaskDesc).duration_weeks ≠
        DurVal.str "start2end" := by simp [hs]
    exact resolveStep_invalid ps pe cur _ hdur hv
  · intro s hs w hv nm ms ps pe cur
    have hdur : ({ name := nm, duration_weeks := DurVal.str s, start_date := ms } : TaskDesc).duration_weeks ≠
        DurVal.str "start2end" := by simp [hs]
    have hdur₂ : ({ name := nm, duration_weeks := DurVal.num w, start_date := ms } : TaskDesc).duration_weeks ≠
        DurVal.str "start2end" := by simp
    cases ms with
    | none =>
        rw [resolveStep_numeric_none ps pe cur _ hdur rfl w hv,
          resolveStep_numeric_none ps pe cur _ hdur₂ rfl w rfl]
    | some d =>
        rw [resolveStep_numeric_some ps pe cur _ hdur d rfl w hv,
          resolveStep_numeric_some ps pe cur _ hdur₂ d rfl w rfl]
  · have h : pyFloatOfString "2.5" =
        some ((natOfDigits ['2'] : ℚ) + (natOfDigits ['5'] : ℚ) / (10 : ℚ) ^ 1) := rfl
    rw [h, show natOfDigits ['2'] = 2 from rfl, show natOfDigits ['5'] = 5 from rfl]
    norm_num

theorem c10_sentinel_exact_string_witness :
    resolveStep (ymd 2026 1 1) (ymd 2026 3 1) (ymd 2026 1 1)
      { name := "T", duration_weeks := DurVal.str "2", start_date := none } =
      resolveStep (ymd 2026 1 1) (ymd 2026 3 1) (ymd 2026 1 1)
        { name := "T", duration_weeks := DurVal.num 2, start_date := none } :=
  c10_sentinel_exact_string.2.1 "2" (by decide) 2 rfl "T" none
    (ymd 2026 1 1) (ymd 2026 3 1) (ymd 2026 1 1)
